import Mathlib

/-!
# Verification of the `xss` gin middleware (package `xss`)

A shallow embedding, in Lean 4, of the structural sanitization and
re-serialization engine of the `xss` repository: the request-side codecs
(JSON, form-urlencoded, multipart, GET query rewriter) and the
response-side JSON filter, together with theorems settling the frozen
claims about the natural-language specification.

Modelling conventions:
* Go strings and `bytes.Buffer` contents are Lean `String`s.
* The bluemonday sanitize capability (`policy.Sanitize`) is an abstract
  parameter `String → String`; `bluemonday.StrictPolicy()` instances
  created locally by the code are separate abstract parameters.
* Go maps (`map[string]interface{}`, `url.Values`) are association lists;
  Go's nondeterministic map iteration is modelled as list-order iteration
  (no claim below depends on a particular order, and where the code's
  behaviour is order-independent this is noted at the theorem).
* Fallible Go functions return `Except GoError _`; a Go runtime panic
  from a failed type assertion is modelled by the distinguished
  error value `GoError.panicTypeAssert`.
-/

namespace Xss

/-- The decoded generic JSON value (`interface{}` produced by
`encoding/json` with `UseNumber()`): `nil`, `bool`, `json.Number`
(original decimal text), `string`, `[]interface{}`,
`map[string]interface{}` (modelled as an ordered association list). -/
inductive Jval where
  | null : Jval
  | boolean : Bool → Jval
  | num : String → Jval
  | str : String → Jval
  | arr : List Jval → Jval
  | obj : List (String × Jval) → Jval
deriving Repr

/-- The `Defender` struct: the configured skip-field list and the
configured bluemonday policy, the latter modelled by its only used
method, `Sanitize : string -> string`. -/
structure Defender where
  skipFields : List String
  policy : String → String

/-- `type Option func(defender *Defender)`, modelled as a state
transformer on `Defender`. -/
def DefOption : Type := Defender → Defender

/-- `SetSkipFields(ss ...string)`: replaces (does not merge) the
defender's skip-field slice with `ss`. -/
def SetSkipFields (ss : List String) : DefOption :=
  fun defender => { defender with skipFields := ss }

/-- `SetPolicy(policy *bluemonday.Policy)`: replaces the defender's
policy. -/
def SetPolicy (policy : String → String) : DefOption :=
  fun defender => { defender with policy := policy }

/-- `NewDefender(policy, options...)`: starts from
`&Defender{policy: policy}` (nil skip-field slice) and applies the
options in order. -/
def NewDefender (policy : String → String) (options : List DefOption) : Defender :=
  options.foldl (fun res option => option res) { skipFields := [], policy := policy }

/-- `DefaultDefender(options...)`: appends `SetSkipFields("password")`
AFTER the caller's options, then builds a defender with
`bluemonday.StrictPolicy()` (abstract parameter `strict`). -/
def DefaultDefender (strict : String → String) (options : List DefOption) : Defender :=
  NewDefender strict (options ++ [SetSkipFields ["password"]])

/-- `buff.Truncate(buff.Len() - 1)`: drop the final byte of the buffer
(the code always calls this with a nonempty buffer, where Go's
`Truncate` is well-defined). -/
def goTruncate1 (s : String) : String :=
  ⟨s.data.dropLast⟩

/-- One character of Go's `%q` (strconv) quoting, for the character
range exercised by this code: quote and backslash are escaped, common
control characters use their mnemonic escapes, other printable
characters stand for themselves.  (Models the external `fmt`/`strconv`
capability.) -/
def goQuoteChar (c : Char) : String :=
  if c = '"' then "\\\""
  else if c = '\\' then "\\\\"
  else if c = '\n' then "\\n"
  else if c = '\t' then "\\t"
  else if c = '\r' then "\\r"
  else String.singleton c

/-- Go's `fmt.Sprintf("%q", s)` for a string value: double quotes
around the escaped characters.  (Models the external `fmt`
capability.) -/
def goQuote (s : String) : String :=
  "\"" ++ String.join (s.data.map goQuoteChar) ++ "\""

/-- Go's `fmt.Sprintf("%q", v)` applied to a decoded `interface{}`
value, as done for skip-listed fields in `ConstructJson`: a string or
`json.Number` (both of string kind) is Go-quoted; a bool or nil has no
quoted form and `fmt` renders the `%!q(...)` error text; slices and
maps render their elements with `%q` (models the external `fmt`
capability; map rendering is modelled in list order). -/
def goQuoteVerb : Jval → String
  | .str s => goQuote s
  | .num t => goQuote t
  | .boolean b => "%!q(bool=" ++ (if b then "true" else "false") ++ ")"
  | .null => "%!q(<nil>)"
  | .arr xs => "[" ++ String.intercalate " " (xs.attach.map (fun x => goQuoteVerb x.1)) ++ "]"
  | .obj m =>
      "map[" ++
        String.intercalate " "
          (m.attach.map (fun kv => goQuote kv.1.1 ++ ":" ++ goQuoteVerb kv.1.2)) ++ "]"
termination_by v => sizeOf v
decreasing_by
  · have h := List.sizeOf_lt_of_mem x.2
    simp only [Jval.arr.sizeOf_spec]
    omega
  · rcases kv with ⟨⟨a, b⟩, hm⟩
    have h := List.sizeOf_lt_of_mem hm
    simp only [Prod.mk.sizeOf_spec] at h
    simp only [Jval.obj.sizeOf_spec]
    omega

mutual

/-- `(p *Defender) ConstructJson(mp Json) bytes.Buffer`: write `{`,
write each entry (see `constructJsonEntries`), truncate the final byte
(intended to be the trailing `','`), write `}`. -/
def constructJson (d : Defender) (mp : List (String × Jval)) : String :=
  goTruncate1 ("\x7b" ++ constructJsonEntries d mp) ++ "\x7d"
termination_by (sizeOf mp, 1)

/-- The body of `ConstructJson`'s `for k, v := range mp` loop: for each
entry write `"k":`; if `k` is one of `p.skipFields` write
`fmt.Sprintf("%q", v)` and a comma (verbatim passthrough); otherwise
write `p.buildJsonApplyPolicy(v, p.policy)` (which ends in a comma). -/
def constructJsonEntries (d : Defender) : List (String × Jval) → String
  | [] => ""
  | (k, v) :: rest =>
      ("\"" ++ k ++ "\":" ++
        (if d.skipFields.contains k then goQuoteVerb v ++ ","
         else buildJsonApplyPolicy d d.policy v)) ++
        constructJsonEntries d rest
termination_by mp => (sizeOf mp, 0)

/-- `(p *Defender) buildJsonApplyPolicy(interf interface{}, policy)`:
one comma-terminated JSON fragment for one decoded value.  With
`UseNumber()` in force the decoder never produces `float64`, so that
arm of the Go `switch` is dead; bools and other non-nil values reach
the `default` arm, which sanitizes `fmt.Sprintf("%v", v)`. -/
def buildJsonApplyPolicy (d : Defender) (policy : String → String) : Jval → String
  | .obj m => constructJson d m ++ ","
  | .arr xs => unravelSlice d policy xs ++ ","
  | .num t => policy t ++ ","
  | .str s => goQuote (policy s) ++ ","
  | .boolean b => policy (if b then "true" else "false") ++ ","
  | .null => "null" ++ ","
termination_by v => (sizeOf v, 0)

/-- `(p *Defender) unravelSlice(ss []interface{}, policy)`: write `[`,
write the entries (see `unravelEntries`), truncate the final byte
(intended to be the trailing `','`), write `]`. -/
def unravelSlice (d : Defender) (policy : String → String) (xs : List Jval) : String :=
  goTruncate1 ("[" ++ unravelEntries d policy xs) ++ "]"
termination_by (sizeOf xs, 1)

/-- The body of `unravelSlice`'s loop: a `switch` with cases only for
`map[string]interface{}` and `string`; any other element kind writes
nothing. -/
def unravelEntries (d : Defender) (policy : String → String) : List Jval → String
  | [] => ""
  | x :: rest =>
      (match x with
        | .obj m => constructJson d m ++ ","
        | .str s => goQuote (policy s) ++ ","
        | _ => "") ++
        unravelEntries d policy rest
termination_by xs => (sizeOf xs, 0)

end

/-- Errors produced by the embedded code paths. -/
inductive GoError where
  /-- `errNotJson` (`"response is not a valid json"`). -/
  | notJson
  /-- `errors.New("Unknown Content Type Received")` from `jsonToStringMap`. -/
  | unknownContentType
  /-- `errors.New("error recreating Multipart form Request")` for a zero-byte part. -/
  | emptyPart
  /-- A Go runtime panic from the failed type assertion
  `n.(map[string]interface{})` in `jsonToStringMap`. -/
  | panicTypeAssert
deriving Repr, DecidableEq

/-! ## JSON decoding

`decodeJson` delegates to the external `encoding/json` decoder
(`json.NewDecoder(content); d.UseNumber(); d.Decode(&jsonBod)`).
Modelled from the spec: `Decode(bytes) -> (Value, error)` — a
recursive-descent parser of the JSON grammar that reads one leading
value (as `Decoder.Decode` does) and fails on malformed or truncated
input. -/

/-- Skip JSON whitespace. -/
def skipWs : List Char → List Char
  | [] => []
  | c :: cs => if c = ' ' || c = '\n' || c = '\t' || c = '\r' then skipWs cs else c :: cs

/-- Value of one hexadecimal digit. -/
def hexDigitVal (c : Char) : Option Nat :=
  if '0' ≤ c ∧ c ≤ '9' then some (c.toNat - '0'.toNat)
  else if 'a' ≤ c ∧ c ≤ 'f' then some (c.toNat - 'a'.toNat + 10)
  else if 'A' ≤ c ∧ c ≤ 'F' then some (c.toNat - 'A'.toNat + 10)
  else none

/-- One-character JSON string escapes. -/
def unescapeChar (c : Char) : Option Char :=
  if c = '"' then some '"'
  else if c = '\\' then some '\\'
  else if c = '/' then some '/'
  else if c = 'n' then some '\n'
  else if c = 't' then some '\t'
  else if c = 'r' then some '\r'
  else if c = 'b' then some (Char.ofNat 8)
  else if c = 'f' then some (Char.ofNat 12)
  else none

/-- Characters of a JSON string literal, after the opening quote, up to
the closing quote; raw control characters are invalid. -/
def parseStrChars : List Char → Option (List Char × List Char)
  | [] => none
  | '"' :: rest => some ([], rest)
  | '\\' :: 'u' :: h1 :: h2 :: h3 :: h4 :: rest => do
      let a ← hexDigitVal h1
      let b ← hexDigitVal h2
      let c ← hexDigitVal h3
      let d ← hexDigitVal h4
      let (s, r) ← parseStrChars rest
      pure (Char.ofNat (((a * 16 + b) * 16 + c) * 16 + d) :: s, r)
  | '\\' :: e :: rest => do
      let c ← unescapeChar e
      let (s, r) ← parseStrChars rest
      pure (c :: s, r)
  | c :: rest =>
      if c.toNat < 32 then none
      else do
        let (s, r) ← parseStrChars rest
        pure (c :: s, r)

/-- ASCII digit test. -/
def isDigitChar (c : Char) : Bool := '0' ≤ c && c ≤ '9'

/-- Integer part of a JSON number: `0`, or a nonzero digit followed by
digits. -/
def parseIntPart : List Char → Option (List Char × List Char)
  | [] => none
  | c :: rest =>
      if c = '0' then some (['0'], rest)
      else if isDigitChar c then
        let (ds, r) := rest.span isDigitChar
        some (c :: ds, r)
      else none

/-- Optional fraction part; a dot with no digit is malformed. -/
def parseFracPart : List Char → Option (List Char × List Char)
  | '.' :: rest =>
      let (ds, r) := rest.span isDigitChar
      if ds.isEmpty then none else some ('.' :: ds, r)
  | cs => some ([], cs)

/-- Optional exponent part; an `e`/`E` with no digit is malformed. -/
def parseExpPart : List Char → Option (List Char × List Char)
  | [] => some ([], [])
  | c :: rest =>
      if c = 'e' || c = 'E' then
        let (sgn, r1) : List Char × List Char :=
          match rest with
          | '+' :: r => (['+'], r)
          | '-' :: r => (['-'], r)
          | _ => ([], rest)
        let (ds, r2) := r1.span isDigitChar
        if ds.isEmpty then none else some (c :: (sgn ++ ds), r2)
      else some ([], c :: rest)

/-- A JSON number; the decimal text is preserved verbatim
(`json.Number`). -/
def parseNumText (cs : List Char) : Option (String × List Char) :=
  let (neg, cs1) : List Char × List Char :=
    match cs with
    | '-' :: r => (['-'], r)
    | _ => ([], cs)
  match parseIntPart cs1 with
  | none => none
  | some (ip, r1) =>
      match parseFracPart r1 with
      | none => none
      | some (fp, r2) =>
          match parseExpPart r2 with
          | none => none
          | some (ep, r3) => some (String.mk (neg ++ ip ++ fp ++ ep), r3)

mutual

/-- One JSON value (fuel-indexed recursive descent). -/
def parseValAux : Nat → List Char → Option (Jval × List Char)
  | 0, _ => none
  | fuel + 1, cs =>
      match skipWs cs with
      | [] => none
      | 'n' :: 'u' :: 'l' :: 'l' :: rest => some (.null, rest)
      | 't' :: 'r' :: 'u' :: 'e' :: rest => some (.boolean true, rest)
      | 'f' :: 'a' :: 'l' :: 's' :: 'e' :: rest => some (.boolean false, rest)
      | '"' :: rest => (parseStrChars rest).map (fun sr => (.str (String.mk sr.1), sr.2))
      | '{' :: rest => (parseObjFields fuel rest).map (fun fr => (.obj fr.1, fr.2))
      | '[' :: rest => (parseArrElems fuel rest).map (fun er => (.arr er.1, er.2))
      | c :: rest => (parseNumText (c :: rest)).map (fun nr => (.num nr.1, nr.2))

/-- Object fields after `{`: empty object, or a nonempty field list. -/
def parseObjFields : Nat → List Char → Option (List (String × Jval) × List Char)
  | 0, _ => none
  | fuel + 1, cs =>
      match skipWs cs with
      | '}' :: rest => some ([], rest)
      | cs1 => parseObjFieldsNE fuel cs1

/-- A nonempty `"key": value` list, comma-separated, ending at `}`. -/
def parseObjFieldsNE : Nat → List Char → Option (List (String × Jval) × List Char)
  | 0, _ => none
  | fuel + 1, cs =>
      match cs with
      | '"' :: rest => do
          let (k, r1) ← parseStrChars rest
          match skipWs r1 with
          | ':' :: r2 => do
              let (v, r3) ← parseValAux fuel r2
              match skipWs r3 with
              | ',' :: r4 => do
                  let (fs, r5) ← parseObjFieldsNE fuel (skipWs r4)
                  pure ((String.mk k, v) :: fs, r5)
              | '}' :: r4 => pure ([(String.mk k, v)], r4)
              | _ => none
          | _ => none
      | _ => none

/-- Array elements after `[`: empty array, or a nonempty element
list. -/
def parseArrElems : Nat → List Char → Option (List Jval × List Char)
  | 0, _ => none
  | fuel + 1, cs =>
      match skipWs cs with
      | ']' :: rest => some ([], rest)
      | cs1 => parseArrElemsNE fuel cs1

/-- A nonempty element list, comma-separated, ending at `]`. -/
def parseArrElemsNE : Nat → List Char → Option (List Jval × List Char)
  | 0, _ => none
  | fuel + 1, cs => do
      let (v, r1) ← parseValAux fuel cs
      match skipWs r1 with
      | ',' :: r2 => do
          let (vs, r3) ← parseArrElemsNE fuel r2
          pure (v :: vs, r3)
      | ']' :: r2 => pure ([v], r2)
      | _ => none

end

/-- Parse one leading JSON value from `s` (the fuel `s.length + 2`
suffices: every recursive step first consumes at least one input
character). -/
def parseJson (s : String) : Option Jval :=
  match parseValAux (s.length + 2) s.data with
  | some (v, _) => some v
  | none => none

/-- `decodeJson(content io.Reader)`: decode one JSON value with
`UseNumber()`; every decode error is replaced by `errNotJson`. -/
def decodeJson (body : String) : Except GoError Jval :=
  match parseJson body with
  | none => .error .notJson
  | some v => .ok v

/-- Whether a decoded value is a `map[string]interface{}`. -/
def isObjVal : Jval → Bool
  | .obj _ => true
  | _ => false

/-- `(p *Defender) jsonToStringMap(jsonBod interface{})`: a top-level
object goes through `ConstructJson`; a top-level array writes `[`, then
`ConstructJson` of each element (the type assertion
`n.(map[string]interface{})` panics on a non-object element), truncates
the final byte, writes `]`; anything else returns the
`"Unknown Content Type Received"` error. -/
def jsonToStringMap (d : Defender) : Jval → Except GoError String
  | .obj m => .ok (constructJson d m)
  | .arr xs =>
      if xs.all isObjVal then
        .ok (goTruncate1 ("[" ++ String.join (xs.map (fun x =>
          match x with
          | .obj m => constructJson d m ++ ","
          | _ => ""))) ++ "]")
      else .error .panicTypeAssert
  | _ => .error .unknownContentType

/-- `(p *Defender) HandleJson(c *gin.Context)`: decode the request
body, rebuild it, and replace `c.Request.Body` with the result; the
returned string is the replacement body. -/
def handleJson (d : Defender) (body : String) : Except GoError String :=
  (decodeJson body).bind (jsonToStringMap d)

/-- `(p *Defender) BuildNewBody(body *bytes.Buffer)` (response path):
same decode-then-rebuild composition as `HandleJson`. -/
def buildNewBody (d : Defender) (body : String) : Except GoError String :=
  (decodeJson body).bind (jsonToStringMap d)

/-! ## Response filter (`filter_xss.go`) -/

/-- Character-list prefix test. -/
def strStartsWith : List Char → List Char → Bool
  | [], _ => true
  | _ :: _, [] => false
  | p :: ps, c :: cs => p = c && strStartsWith ps cs

/-- Substring scan used by `goContains`. -/
def goContainsAux (pat : List Char) : List Char → Bool
  | [] => strStartsWith pat []
  | c :: cs => strStartsWith pat (c :: cs) || goContainsAux pat cs

/-- `strings.Contains(s, substr)` (models the external `strings`
capability). -/
def goContains (s pat : String) : Bool := goContainsAux pat.data s.data

/-- What the response middleware does with the captured body. -/
inductive RespAction where
  | write : String → RespAction
  | abortWithError : RespAction
deriving Repr, DecidableEq

/-- The post-handler tail of `FilterXSS()`: the handler's output is
captured in `oldBody`; if the response `content-type` does not contain
`application/json` the captured bytes are written through unchanged;
otherwise the body is rebuilt with `BuildNewBody` and written, or, on
error, the context aborts with status 500 (`errXSSFilter`). -/
def filterXSS (d : Defender) (contentType oldBody : String) : RespAction :=
  if !(goContains contentType "application/json") then .write oldBody
  else
    match buildNewBody d oldBody with
    | .error _ => .abortWithError
    | .ok newBody => .write newBody

/-! ## Form codec (`HandleXFormEncoded`) -/

/-- A `bytes.Buffer` filled by a loop that writes each piece followed
by a separator: the concatenation of `x ++ sep` over the list. -/
def sepTerminated (sep : String) : List String → String
  | [] => ""
  | x :: rest => x ++ sep ++ sepTerminated sep rest

/-- Pieces joined by a separator with no trailing separator. -/
def joinSep (sep : String) : List String → String
  | [] => ""
  | [x] => x
  | x :: y :: rest => x ++ sep ++ joinSep sep (y :: rest)

/-- One `k=v` output pair of `HandleXFormEncoded`'s loop: the key, `=`,
then `url.QueryEscape` (abstracted as `qe`) of the raw first value when
the key is skip-listed, else of the sanitized first value.
(`url.ParseQuery` never produces an empty value list, so `v[0]` is
modelled by `headD ""`.) -/
def formPairOut (d : Defender) (qe : String → String) (kv : String × List String) : String :=
  kv.1 ++ "=" ++
    (if d.skipFields.contains kv.1 then qe (kv.2.headD "")
     else qe (d.policy (kv.2.headD "")))

/-- `(p *Defender) HandleXFormEncoded(c *gin.Context)` after the body
has been read into `origBody` and parsed by `url.ParseQuery` into `m`
(association-list model of the `url.Values` map): build
`k=v&`-pieces, and if the buffer is longer than one byte truncate the
trailing `&` and use it as the new body, otherwise keep the original
bytes.  (The buffer length is 0 or ≥ 2 in both the Go byte count and
this character count, so the branch taken agrees.) -/
def handleXFormEncoded (d : Defender) (qe : String → String) (origBody : String)
    (m : List (String × List String)) : String :=
  let bq := sepTerminated "&" (m.map (formPairOut d qe))
  if bq.length > 1 then goTruncate1 bq else origBody

/-! ## Multipart codec (`HandleMultiPartFormData`) -/

/-- One decoded multipart section (the external `mime/multipart`
reader's view of a part): the `name`, the `filename` (empty when
absent), the part's `Content-Type` header (empty when absent), and the
part's content bytes. -/
structure MultipartPart where
  formName : String
  fileName : String
  contentTypeHeader : String
  content : String
deriving Repr, DecidableEq

/-- CRLF. -/
def crlf : String := "\r\n"

/-- The per-part body of the `HandleMultiPartFormData` loop: boundary
line, then — for a file part (nonempty filename) — the
`Content-Disposition` with `name` and `filename`, a `Content-Type`
defaulting to `application/octet-stream`, and the content bytes
unmodified; for a field part, the `Content-Disposition` with `name`
only and the content sanitized by a freshly constructed
`bluemonday.StrictPolicy()` (abstract `strict`) unless the field name
is exactly `"password"`. -/
def emitPart (strict : String → String) (boundary : String) (part : MultipartPart) : String :=
  "--" ++ boundary ++ crlf ++
    (if part.fileName ≠ "" then
      "Content-Disposition: form-data; name=\"" ++ part.formName ++ "\"; " ++
        "filename=\"" ++ part.fileName ++ "\";" ++ crlf ++
        "Content-Type: " ++
          (if part.contentTypeHeader = "" then "application/octet-stream"
           else part.contentTypeHeader) ++ crlf ++ crlf ++
        part.content ++ crlf
     else
      "Content-Disposition: form-data; name=\"" ++ part.formName ++ "\";" ++ crlf ++ crlf ++
        (if part.formName == "password" then part.content else strict part.content) ++ crlf)

/-- The `HandleMultiPartFormData` loop over the decoded parts: a part
whose read yields zero bytes is a hard error
(`"error recreating Multipart form Request"`); otherwise the emitted
parts are concatenated in order. -/
def emitParts (strict : String → String) (boundary : String) :
    List MultipartPart → Except GoError String
  | [] => .ok ""
  | part :: rest =>
      if part.content = "" then .error .emptyPart
      else (emitParts strict boundary rest).map (fun tail => emitPart strict boundary part ++ tail)

/-- `(p *Defender) HandleMultiPartFormData` after the external
`mime/multipart` reader has produced the part list: at most 100 parts
are read, each is emitted by `emitPart`, and the closing delimiter
`--boundary--\r\n` is appended; the result replaces the request
body. -/
def handleMultiPartFormData (strict : String → String) (boundary : String)
    (parts : List MultipartPart) : Except GoError String :=
  (emitParts strict boundary (parts.take 100)).map
    (fun body => body ++ "--" ++ boundary ++ "--" ++ crlf)

/-- Field-part emission as the spec's sentence describes it: consult
the configured FieldPolicy — the defender's `skipFields` and `policy` —
for the sanitize-vs-skip decision.  Stated only to be compared with the
code's `emitPart`. -/
def emitFieldPartSpec (d : Defender) (boundary : String) (part : MultipartPart) : String :=
  "--" ++ boundary ++ crlf ++
    "Content-Disposition: form-data; name=\"" ++ part.formName ++ "\";" ++ crlf ++ crlf ++
    (if d.skipFields.contains part.formName then part.content else d.policy part.content) ++ crlf

/-! ## Query rewriter (`HandleGETRequest`) -/

/-- `(p *Defender) HandleGETRequest`'s loop over the parsed query
parameters: a skip-listed key keeps its value list; any other key is
`Del`eted and then `Set` once per value — `url.Values.Set` replaces the
whole list, so only the final value's sanitized form survives (and a
key with an empty value list stays deleted).  Iteration is modelled
over a snapshot of the map in list order; the collapse to a single
value holds under any Go map-range order. -/
def handleGETRequest (d : Defender) (queryParams : List (String × List String)) :
    List (String × List String) :=
  queryParams.filterMap (fun kv =>
    if d.skipFields.contains kv.1 then some kv
    else
      match kv.2.getLast? with
      | none => none
      | some lastItem => some (kv.1, [d.policy lastItem]))

/-- Ordered insertion by key. -/
def insertByKey (kv : String × List String) :
    List (String × List String) → List (String × List String)
  | [] => [kv]
  | kv2 :: rest => if kv.1 ≤ kv2.1 then kv :: kv2 :: rest else kv2 :: insertByKey kv rest

/-- Insertion sort by key. -/
def sortByKey : List (String × List String) → List (String × List String)
  | [] => []
  | kv :: rest => insertByKey kv (sortByKey rest)

/-- `url.Values.Encode()`: keys sorted, every value of every key
emitted as `QueryEscape(k)=QueryEscape(v)`, pairs joined with `&`
(models the external `net/url` capability; `qe` abstracts
`QueryEscape`). -/
def encodeQuery (qe : String → String) (queryParams : List (String × List String)) : String :=
  joinSep "&"
    (((sortByKey queryParams).map (fun kv => kv.2.map (fun v => qe kv.1 ++ "=" ++ qe v))).flatten)

/-! ## Auxiliary definitions used by the theorems -/

/-- The `Defender`-independent header that `emitPart` writes for a file
part (boundary line, `Content-Disposition` with `name` and `filename`,
and the `Content-Type` with its `application/octet-stream` default). -/
def filePartHeader (boundary : String) (part : MultipartPart) : String :=
  "--" ++ boundary ++ crlf ++
    "Content-Disposition: form-data; name=\"" ++ part.formName ++ "\"; " ++
      "filename=\"" ++ part.fileName ++ "\";" ++ crlf ++
      "Content-Type: " ++
        (if part.contentTypeHeader = "" then "application/octet-stream"
         else part.contentTypeHeader) ++ crlf ++ crlf

/-- What one array element contributes inside `unravelSlice`: objects
and strings produce a fragment, every other kind produces nothing. -/
def unravelEmit (d : Defender) (policy : String → String) : Jval → Option String
  | .obj m => some (constructJson d m)
  | .str s => some (goQuote (policy s))
  | _ => none

/-- Whether a decoded top-level value is a scalar (neither an object
nor an array). -/
def isScalarVal : Jval → Bool
  | .obj _ => false
  | .arr _ => false
  | _ => true

/-- A sample sanitize capability (stands for a configured
`policy.Sanitize`). -/
def samplePolicy : String → String := fun s => "P(" ++ s ++ ")"

/-- A sample strict-policy sanitize capability (stands for a locally
constructed `bluemonday.StrictPolicy()`). -/
def sampleStrict : String → String := fun s => "STRICT(" ++ s ++ ")"

/-- A defender with an empty skip-field list. -/
def plainDefender : Defender := { skipFields := [], policy := samplePolicy }

/-- A defender configured to skip the field `bio`. -/
def bioDefender : Defender := { skipFields := ["bio"], policy := samplePolicy }

/-- A multipart text part named `bio`. -/
def bioPart : MultipartPart :=
  { formName := "bio", fileName := "", contentTypeHeader := "", content := "x" }

/-! ## Helper lemmas -/

/-- Truncating the final byte of `s ++ t` removes exactly `t` when `t`
is one character. -/
theorem goTruncate1_append_char (s t : String) (c : Char) (h : t.data = [c]) :
    goTruncate1 (s ++ t) = s := by
  apply String.ext
  simp [goTruncate1, String.data_append, h]

/-- Truncating the final byte of `a ++ (b ++ t)` with `t` one character
yields `a ++ b`. -/
theorem goTruncate1_append_pair (a b t : String) (c : Char) (ht : t.data = [c]) :
    goTruncate1 (a ++ (b ++ t)) = a ++ b := by
  apply String.ext
  simp [goTruncate1, String.data_append, ht, ← List.append_assoc]

/-- A separator-terminated buffer over a nonempty list is the
separator-joined pieces followed by one trailing separator. -/
theorem sepTerminated_eq_joinSep (sep : String) :
    ∀ l : List String, l ≠ [] → sepTerminated sep l = joinSep sep l ++ sep
  | [], h => absurd rfl h
  | [x], _ => by simp [sepTerminated, joinSep]
  | x :: y :: rest, _ => by
      have ih := sepTerminated_eq_joinSep sep (y :: rest) (by simp)
      simp only [sepTerminated, joinSep] at *
      rw [ih, ← String.append_assoc]

/-- The separator-terminated buffer of a nonempty piece list, each
piece at least one character long, is longer than one byte. -/
theorem sepTerminated_length (sep : String) (x : String) (l : List String)
    (hx : 1 ≤ x.length) (hs : 1 ≤ sep.length) :
    1 < (sepTerminated sep (x :: l)).length := by
  simp only [sepTerminated, String.length_append]
  omega

/-! ## Claim theorems -/

/-- C10: for every list of options passed to `DefaultDefender`, the
constructed defender's skip-field set is exactly `["password"]`: the
default `SetSkipFields("password")` option is appended after the
caller's options, and `SetSkipFields` replaces (does not merge) the
skip-field slice, so caller-supplied skip fields are discarded. -/
theorem defaultDefender_skipFields (strict : String → String) (options : List DefOption) :
    (DefaultDefender strict options).skipFields = ["password"] := by
  simp [DefaultDefender, NewDefender, List.foldl_append, SetSkipFields]

/-- C9: on the response path, a response whose `content-type` does not
contain `application/json` is forwarded byte-identical to what the
handler wrote into the captured buffer, with no sanitization or
re-serialization applied. -/
theorem filterXSS_nonjson_passthrough (d : Defender) (contentType oldBody : String)
    (h : goContains contentType "application/json" = false) :
    filterXSS d contentType oldBody = .write oldBody := by
  simp [filterXSS, h]

/-- C9 witness: a `text/plain` response body passes through
unchanged. -/
theorem filterXSS_nonjson_passthrough_witness :
    filterXSS plainDefender "text/plain" "hello <b>world</b>" = .write "hello <b>world</b>" :=
  filterXSS_nonjson_passthrough plainDefender "text/plain" "hello <b>world</b>" (by decide)

/-- C3: contrary to the claim, encoding the empty JSON object does NOT
produce `{}`: the unconditional `buff.Truncate(buff.Len() - 1)` removes
the opening brace, so `ConstructJson` emits the single byte `}` (and
`unravelSlice` likewise emits `]` for the empty array). -/
theorem constructJson_empty_loses_brace (d : Defender) (policy : String → String) :
    constructJson d [] = "\x7d" ∧ unravelSlice d policy [] = "]" := by
  constructor
  · simp only [constructJson, constructJsonEntries, goTruncate1]
    rfl
  · simp only [unravelSlice, unravelEntries, goTruncate1]
    rfl

/-- C7: round-trip idempotence fails at the byte level: the body `{}`
rebuilds to the single byte `}`, which is not valid JSON, so applying
decode-then-encode to that already-processed body yields `NotJsonError`
instead of byte-identical output. -/
theorem handleJson_roundtrip_fails_on_empty_object :
    handleJson plainDefender "\x7b\x7d" = .ok "\x7d"
    ∧ handleJson plainDefender "\x7d" = .error .notJson := by
  constructor
  · have hp : parseJson "\x7b\x7d" = some (.obj []) := rfl
    simp only [handleJson, decodeJson, hp, Except.bind, jsonToStringMap, constructJson,
      constructJsonEntries, goTruncate1]
    rfl
  · have hp : parseJson "\x7d" = none := rfl
    simp only [handleJson, decodeJson, hp, Except.bind]

/-- C2: contrary to the claim, the query rewriter collapses a
multi-valued parameter: for `q = ["<script>", "b"]` and an empty skip
set only the sanitized LAST value survives (`url.Values.Set` replaces
the whole list on every loop iteration), so the re-encoded query holds
one occurrence of `q`, not two. -/
theorem handleGETRequest_collapses_multivalued :
    handleGETRequest plainDefender [("q", ["<script>", "b"])] = [("q", [samplePolicy "b"])]
    ∧ encodeQuery id (handleGETRequest plainDefender [("q", ["<script>", "b"])]) = "q=P(b)" := by
  constructor <;> rfl

/-- C6 counterexample: a top-level scalar does NOT yield
`NotJsonError`: `decodeJson` decodes `5` successfully, and the pipeline
then fails inside `jsonToStringMap` with the distinct
`"Unknown Content Type Received"` error. -/
theorem handleJson_topLevelScalar_cex :
    decodeJson "5" = .ok (.num "5")
    ∧ handleJson plainDefender "5" = .error .unknownContentType
    ∧ GoError.unknownContentType ≠ GoError.notJson := by
  exact ⟨rfl, rfl, by decide⟩

/-- C6 amended: malformed or truncated input (a decode failure) yields
`NotJsonError`; a top-level scalar decodes successfully and the
pipeline then aborts with the distinct `"Unknown Content Type
Received"` error from `jsonToStringMap`. -/
theorem handleJson_error_classification (d : Defender) (s : String) :
    (parseJson s = none → handleJson d s = .error .notJson)
    ∧ ∀ v, parseJson s = some v → isScalarVal v = true →
        handleJson d s = .error .unknownContentType := by
  constructor
  · intro h
    simp [handleJson, decodeJson, h, Except.bind]
  · intro v hv hs
    simp only [handleJson, decodeJson, hv, Except.bind]
    cases v <;> simp_all [isScalarVal, jsonToStringMap]

/-- C6 amended, witness: truncated input yields `NotJsonError`, a
top-level scalar yields the unknown-content-type error. -/
theorem handleJson_error_classification_witness :
    handleJson plainDefender "\x7b\"a\":" = .error .notJson
    ∧ handleJson plainDefender "true" = .error .unknownContentType :=
  ⟨(handleJson_error_classification plainDefender "\x7b\"a\":").1 rfl,
   (handleJson_error_classification plainDefender "true").2 (.boolean true) rfl rfl⟩

/-- C8: a form body whose parse yields no key/value pairs is passed
through as the original bytes; a nonempty pair set is re-encoded as the
pairs joined with `&` and no trailing separator. -/
theorem handleXFormEncoded_empty_and_join (d : Defender) (qe : String → String)
    (origBody : String) (m : List (String × List String)) :
    (m = [] → handleXFormEncoded d qe origBody m = origBody)
    ∧ (m ≠ [] →
        handleXFormEncoded d qe origBody m = joinSep "&" (m.map (formPairOut d qe))) := by
  constructor
  · intro h
    subst h
    simp [handleXFormEncoded, sepTerminated]
  · intro h
    match m, h with
    | kv :: rest, _ =>
      have hone : 1 ≤ (formPairOut d qe kv).length := by
        simp only [formPairOut, String.length_append]
        have : "=".length = 1 := rfl
        omega
      have hlen : 1 <
          (sepTerminated "&" ((kv :: rest).map (formPairOut d qe))).length := by
        simpa using sepTerminated_length "&" (formPairOut d qe kv)
          (rest.map (formPairOut d qe)) hone (by decide)
      simp only [handleXFormEncoded, if_pos hlen]
      rw [sepTerminated_eq_joinSep _ _ (by simp), goTruncate1_append_char _ "&" '&' rfl]

/-- C8 witness: the empty parse keeps the original body; two pairs are
joined with a single `&`. -/
theorem handleXFormEncoded_witness :
    handleXFormEncoded plainDefender id "orig" [] = "orig"
    ∧ handleXFormEncoded plainDefender id "orig" [("a", ["x"]), ("b", ["y"])]
        = "a=P(x)&b=P(y)" :=
  ⟨(handleXFormEncoded_empty_and_join plainDefender id "orig" []).1 rfl,
   ((handleXFormEncoded_empty_and_join plainDefender id "orig"
      [("a", ["x"]), ("b", ["y"])]).2 (by decide)).trans rfl⟩

/-- C5: a file part (nonempty filename) is emitted as a
defender-independent header followed by the content bytes unmodified —
the sanitize capability is never applied to them — and an absent
`Content-Type` header is replaced by `application/octet-stream`. -/
theorem emitPart_filePart_passthrough (strict strict2 : String → String) (boundary : String)
    (part : MultipartPart) (h : part.fileName ≠ "") :
    emitPart strict boundary part = filePartHeader boundary part ++ part.content ++ crlf
    ∧ emitPart strict boundary part = emitPart strict2 boundary part
    ∧ (part.contentTypeHeader = "" →
        emitPart strict boundary part
          = "--" ++ boundary ++ crlf ++
              "Content-Disposition: form-data; name=\"" ++ part.formName ++ "\"; " ++
              "filename=\"" ++ part.fileName ++ "\";" ++ crlf ++
              "Content-Type: " ++ "application/octet-stream" ++ crlf ++ crlf ++
              part.content ++ crlf) := by
    refine ⟨?_, ?_, ?_⟩
    · simp [emitPart, filePartHeader, h, String.append_assoc]
    · simp [emitPart, h]
    · intro hc
      simp [emitPart, h, hc, String.append_assoc]

/-- C5 witness: a file part `a.txt` with content `hello` and no
`Content-Type` header. -/
theorem emitPart_filePart_passthrough_witness :
    emitPart sampleStrict "bnd" ⟨"f", "a.txt", "", "hello"⟩
      = filePartHeader "bnd" ⟨"f", "a.txt", "", "hello"⟩ ++ "hello" ++ crlf :=
  (emitPart_filePart_passthrough sampleStrict samplePolicy "bnd"
    ⟨"f", "a.txt", "", "hello"⟩ (by decide)).1

/-- C4 counterexample: in an array, an element that is neither an
object nor a string is silently dropped, not emitted via a generic
scalar rule: `[1, "a"]` under the policy loses the `1` entirely. -/
theorem unravelSlice_drops_nonstring_scalars :
    unravelSlice plainDefender samplePolicy [.num "1", .str "a"] = "[\"P(a)\"]"
    ∧ goContains "[\"P(a)\"]" "1" = false := by
  refine ⟨?_, by decide⟩
  simp only [unravelSlice, unravelEntries, goTruncate1]
  rfl

/-- The loop of `unravelSlice` writes exactly the comma-terminated
fragments of the object and string elements, in order. -/
theorem unravelEntries_eq_sepTerminated (d : Defender) (policy : String → String) :
    ∀ xs : List Jval,
      unravelEntries d policy xs = sepTerminated "," (xs.filterMap (unravelEmit d policy))
  | [] => by simp [unravelEntries, sepTerminated]
  | x :: rest => by
      have ih := unravelEntries_eq_sepTerminated d policy rest
      cases x <;>
        simp [unravelEntries, unravelEmit, sepTerminated, ih, String.append_assoc]

/-- C4 amended: array encoding emits exactly the object elements
(recursively) and the string elements (sanitized then quoted), in
order, comma-joined; elements of any other kind (numbers, booleans,
null, nested arrays) are dropped — and when nothing is emitted the
trailing-byte truncation destroys the opening bracket, leaving `]`. -/
theorem unravelSlice_filterMap (d : Defender) (policy : String → String) (xs : List Jval) :
    unravelSlice d policy xs
      = (if (xs.filterMap (unravelEmit d policy)).isEmpty then "]"
         else "[" ++ joinSep "," (xs.filterMap (unravelEmit d policy)) ++ "]") := by
  simp only [unravelSlice, unravelEntries_eq_sepTerminated]
  cases hk : xs.filterMap (unravelEmit d policy) with
  | nil =>
      simp only [sepTerminated, List.isEmpty_nil, if_pos]
      rw [String.append_empty]
      rfl
  | cons a l =>
      rw [sepTerminated_eq_joinSep _ _ (by simp), ← String.append_assoc,
        goTruncate1_append_char _ "," ',' rfl]
      simp

/-- C1 counterexample: the multipart codec does NOT consult the
configured FieldPolicy: for a defender that skips `bio` the emitted
field part named `bio` differs from what consulting the configured
`skipFields`/`policy` would produce (the code sanitizes it with a
fresh strict policy instead of skipping it). -/
theorem emitPart_ignores_configured_policy :
    emitPart sampleStrict "b" bioPart ≠ emitFieldPartSpec bioDefender "b" bioPart := by
  decide

/-- C1 amended: the JSON codec, form codec and query rewriter consult
the configured `skipFields` and `policy` for the sanitize-vs-skip
decision, but the multipart codec does not: its field-part emission
behaves as if the FieldPolicy were fixed to the hard-coded skip set
`["password"]` and a fresh strict policy, whatever the defender's
configuration. -/
theorem codecs_policy_consultation (d : Defender) (strict qe : String → String)
    (boundary : String) (part : MultipartPart) (k v x : String) (vs : List String)
    (hf : part.fileName = "") :
    emitPart strict boundary part
      = emitFieldPartSpec { skipFields := ["password"], policy := strict } boundary part
    ∧ (d.skipFields.contains k = true →
        constructJson d [(k, Jval.str v)] = "\x7b" ++ "\"" ++ k ++ "\":" ++ goQuote v ++ "\x7d"
        ∧ formPairOut d qe (k, [v]) = k ++ "=" ++ qe v
        ∧ handleGETRequest d [(k, vs)] = [(k, vs)])
    ∧ (d.skipFields.contains k = false →
        constructJson d [(k, Jval.str v)]
          = "\x7b" ++ "\"" ++ k ++ "\":" ++ goQuote (d.policy v) ++ "\x7d"
        ∧ formPairOut d qe (k, [v]) = k ++ "=" ++ qe (d.policy v)
        ∧ handleGETRequest d [(k, vs ++ [x])] = [(k, [d.policy x])]) := by
  refine ⟨?_, fun hk => ?_, fun hk => ?_⟩
  · simp [emitPart, emitFieldPartSpec, hf, List.contains, String.append_assoc]
  · have hk' : k ∈ d.skipFields := by simpa using hk
    refine ⟨?_, ?_, ?_⟩
    · simp only [constructJson, constructJsonEntries, hk, if_pos, goQuoteVerb,
        String.append_empty]
      rw [← String.append_assoc "\x7b" _ _, goTruncate1_append_pair _ _ _ ',' rfl]
      simp [String.append_assoc]
      try rfl
    · simp [formPairOut, hk']
    · simp [handleGETRequest, hk']
  · have hk' : k ∉ d.skipFields := by simpa using hk
    refine ⟨?_, ?_, ?_⟩
    · simp only [constructJson, constructJsonEntries, hk, Bool.false_eq_true, if_false,
        buildJsonApplyPolicy, String.append_empty]
      rw [← String.append_assoc "\x7b" _ _, goTruncate1_append_pair _ _ _ ',' rfl]
      simp [String.append_assoc]
      try rfl
    · simp [formPairOut, hk']
    · simp [handleGETRequest, hk', List.getLast?_concat]

/-- C1 amended, witness: the multipart equality at a concrete field
part, the verbatim JSON emission of the skip-listed key `bio`, and the
query rewriter sanitizing a non-skip key with the configured policy. -/
theorem codecs_policy_consultation_witness :
    emitPart sampleStrict "b" bioPart
      = emitFieldPartSpec { skipFields := ["password"], policy := sampleStrict } "b" bioPart
    ∧ constructJson bioDefender [("bio", Jval.str "v")]
        = "\x7b" ++ "\"" ++ "bio" ++ "\":" ++ goQuote "v" ++ "\x7d"
    ∧ handleGETRequest bioDefender [("q", ["a"] ++ ["b"])] = [("q", [bioDefender.policy "b"])] :=
  ⟨(codecs_policy_consultation bioDefender sampleStrict id "b" bioPart "bio" "v" "b" ["a"]
      rfl).1,
   ((codecs_policy_consultation bioDefender sampleStrict id "b" bioPart "bio" "v" "b" ["a"]
      rfl).2.1 (by decide)).1,
   ((codecs_policy_consultation bioDefender sampleStrict id "b" bioPart "q" "v" "b" ["a"]
      rfl).2.2 (by decide)).2.2⟩

end Xss
